import Mathlib

/-!
# Presence synchronisation loop of the Artifact Discord SDK client

A shallow embedding of `src/discordpp.h` (the SDK wrapper with its in-repository
stand-in implementation) and of `src/discord_sdk.cpp` (`signalHandler`,
`DiscordHandler` and `main`), followed by the properties proved about them.

Modelling decisions
* `main` is a small-step machine.  A program counter (`Pc`) names the statement
  group that runs next; `signalHandler` may run between any two of them.
* `main` is written against the interface of `discordpp.h`, so the machine takes
  the SDK as a parameter (`Sdk`).  `discord.stub` is the implementation that the
  header itself contains.
* Time is supplied by the environment: every step of a run says how many
  nanoseconds of `steady_clock` time pass before it and what `system_clock`
  shows (whole seconds since the epoch).
* All strings that `main` copies with `strcpy_s` are shorter than the 128 and
  256 byte buffers of `discord::Activity`, so a copy is an assignment.
* No statement of the modelled code throws, so the `catch` block of `main` is
  never entered.
* The machine starts when `main` has installed `signalHandler` (lines 57-58), and
  the handler stays installed: every delivered signal runs it.
-/

namespace discord

/-- Result codes: `enum class Result : int32_t`, enumerators numbered 0 to 43 in this order. -/
inductive Result
  | Ok
  | ServiceUnavailable
  | InvalidVersion
  | LockFailed
  | InternalError
  | InvalidPayload
  | InvalidCommand
  | InvalidPermissions
  | NotFetched
  | NotFound
  | Conflict
  | InvalidSecret
  | InvalidJoinSecret
  | NoEligibleActivity
  | InvalidInvite
  | NotAuthenticated
  | InvalidAccessToken
  | ApplicationMismatch
  | InvalidDataUrl
  | InvalidBase64
  | NotFiltered
  | LobbyFull
  | InvalidLobbySecret
  | InvalidFilename
  | InvalidFileSize
  | InvalidEntitlement
  | NotInstalled
  | NotRunning
  | InsufficientBuffer
  | PurchaseCanceled
  | InvalidGuild
  | InvalidEvent
  | InvalidChannel
  | InvalidOrigin
  | RateLimited
  | OAuth2Error
  | SelectChannelTimeout
  | GetGuildTimeout
  | SelectVoiceForceRequired
  | CaptureShortcutAlreadyListening
  | UnauthorizedForAchievement
  | InvalidGiftCode
  | PurchaseError
  | TransactionAborted
  deriving DecidableEq, Repr, Fintype

/-- The integer behind a result code (`static_cast<int>(result)`): the enumerators
are numbered consecutively from 0 in declaration order. -/
def Result.toInt (r : Result) : Int := Int.ofNat r.toCtorIdx

/-- Activity categories: `enum class ActivityType : int32_t`. -/
inductive ActivityType
  | Playing
  | Streaming
  | Listening
  | Watching
  | Custom
  | Competing
  deriving DecidableEq, Repr

/-- The struct `ActivityTimestamps`: two `int64_t` fields, epoch seconds. -/
structure ActivityTimestamps where
  start : Int
  end_ : Int
  deriving DecidableEq, Repr

/-- Setter `ActivityTimestamps::SetStart`. -/
def ActivityTimestamps.SetStart (t : ActivityTimestamps) (timestamp : Int) : ActivityTimestamps :=
  { t with start := timestamp }

/-- Setter `ActivityTimestamps::SetEnd`. -/
def ActivityTimestamps.SetEnd (t : ActivityTimestamps) (timestamp : Int) : ActivityTimestamps :=
  { t with end_ := timestamp }

/-- The struct `ActivityAssets`: four character buffers. -/
structure ActivityAssets where
  largeImage : String
  largeText : String
  smallImage : String
  smallText : String
  deriving DecidableEq, Repr

/-- Setter `ActivityAssets::SetLargeImage`. -/
def ActivityAssets.SetLargeImage (a : ActivityAssets) (image : String) : ActivityAssets :=
  { a with largeImage := image }

/-- Setter `ActivityAssets::SetLargeText`. -/
def ActivityAssets.SetLargeText (a : ActivityAssets) (text : String) : ActivityAssets :=
  { a with largeText := text }

/-- Setter `ActivityAssets::SetSmallImage`. -/
def ActivityAssets.SetSmallImage (a : ActivityAssets) (image : String) : ActivityAssets :=
  { a with smallImage := image }

/-- Setter `ActivityAssets::SetSmallText`. -/
def ActivityAssets.SetSmallText (a : ActivityAssets) (text : String) : ActivityAssets :=
  { a with smallText := text }

/-- The class `Activity`: the presence record. -/
structure Activity where
  details : String
  state : String
  type : ActivityType
  timestamps : ActivityTimestamps
  assets : ActivityAssets
  deriving DecidableEq, Repr

/-- Constructor `Activity()`: type `Playing`, every buffer and both timestamps zeroed. -/
def Activity.new : Activity :=
  { details := "", state := "", type := ActivityType.Playing,
    timestamps := { start := 0, end_ := 0 },
    assets := { largeImage := "", largeText := "", smallImage := "", smallText := "" } }

/-- Setter `Activity::SetDetails`. -/
def Activity.SetDetails (a : Activity) (text : String) : Activity :=
  { a with details := text }

/-- Setter `Activity::SetState`. -/
def Activity.SetState (a : Activity) (text : String) : Activity :=
  { a with state := text }

/-- Setter `Activity::SetType`. -/
def Activity.SetType (a : Activity) (activityType : ActivityType) : Activity :=
  { a with type := activityType }

/-- What an implementation of the SDK interface of `discordpp.h` lets `main` observe.
`Create` is the code returned by `Core::Create`.  `UpdateActivity n a` lists the
result codes with which the callback is invoked before the call numbered `n`
(counted from 0) of `ActivityManager::UpdateActivity`, made with record `a`,
returns.  `RunCallbacks n` lists the result codes with which activity callbacks
are invoked during the call numbered `n` of `Core::RunCallbacks`. -/
structure Sdk where
  Create : Result
  UpdateActivity : Nat → Activity → List Result
  RunCallbacks : Nat → List Result

/-- The implementation contained in `discordpp.h`: `Core::Create` allocates a core
and returns `Ok`; `UpdateActivity` calls `callback(Result::Ok)` in its own body;
the body of `RunCallbacks` is empty. -/
def stub : Sdk :=
  { Create := Result.Ok
    UpdateActivity := fun _ _ => [Result.Ok]
    RunCallbacks := fun _ => [] }

end discord

namespace DiscordSdk

open discord

/-- The constant `APPLICATION_ID`. -/
def APPLICATION_ID : Nat := 1381335767607152740

/-- Calls that `main` makes on the SDK, the sleep and the release of the core.
`UpdateActivity a cb`: a call with record `a` during which `OnActivityUpdate`
was invoked with the codes `cb`, in this order, before the call returned.
`RunCallbacks cb`: a call during which `OnActivityUpdate` was invoked with `cb`. -/
inductive Event
  | Create (r : Result)
  | SetLogHook
  | UpdateActivity (a : Activity) (cb : List Result)
  | RunCallbacks (cb : List Result)
  | sleep_for (ms : Nat)
  | deleteCore
  deriving DecidableEq, Repr

/-- Statement groups of `main`, named by what runs next: `create` lines 60-73,
`setup` lines 75-103, `initTick` line 106, `head` line 107, `drain` line 110,
`tick` lines 113-125, `sleep` line 128, `cleanup` lines 131-132, and `exited code`
once `main` has returned `code` (lines 72 and 140-141). -/
inductive Pc
  | create
  | setup
  | initTick
  | head
  | drain
  | tick
  | sleep
  | cleanup
  | exited (code : Int)
  deriving DecidableEq, Repr

/-- The state of the process.  The first six fields are program state: the
program counter, the global `running`, the locals `activity` and `lastTick`
(steady-clock nanoseconds), standard output, and the calls made so far (oldest
first).  The others are history variables: `clock` is the steady-clock time in
nanoseconds since the machine started, `lastRead` the latest value returned by
`steady_clock::now()`, `loopStart` the value `lastTick` was initialised with,
`loopExit` the time at which the loop condition was found false, `iterations`
the number of times the loop body was entered. -/
structure State where
  pc : Pc
  running : Bool
  activity : Activity
  lastTick : Int
  stdout : List String
  trace : List Event
  clock : Int
  lastRead : Int
  loopStart : Int
  loopExit : Int
  iterations : Nat

/-- The state once `main` has installed `signalHandler` for `SIGINT` and `SIGTERM`
(lines 57-58): `running` is `true` (line 16). -/
def init : State :=
  { pc := Pc.create, running := true, activity := Activity.new, lastTick := 0,
    stdout := [], trace := [], clock := 0, lastRead := 0, loopStart := 0,
    loopExit := 0, iterations := 0 }

/-- The function `signalHandler`: one line of output, then `running.store(false)`. -/
def signalHandler (signum : Int) (s : State) : State :=
  { s with
    stdout := s.stdout ++
      ["\n🛑 Received signal " ++ toString signum ++ ", shutting down gracefully...\n"]
    running := false }

/-- The text written by `DiscordHandler::OnActivityUpdate`, which is all it does. -/
def OnActivityUpdate (result : Result) : String :=
  if result = Result.Ok then "✅ Activity updated successfully\n"
  else "❌ Failed to update activity: " ++ toString result.toInt ++ "\n"

/-- Number of `UpdateActivity` calls in a trace. -/
def submissions : List Event → Nat
  | [] => 0
  | Event.UpdateActivity _ _ :: es => submissions es + 1
  | _ :: es => submissions es

/-- Number of `RunCallbacks` calls in a trace. -/
def drains : List Event → Nat
  | [] => 0
  | Event.RunCallbacks _ :: es => drains es + 1
  | _ :: es => drains es

/-- Number of `sleep_for` calls in a trace. -/
def sleeps : List Event → Nat
  | [] => 0
  | Event.sleep_for _ :: es => sleeps es + 1
  | _ :: es => sleeps es

/-- Number of `delete core` actions in a trace. -/
def closes : List Event → Nat
  | [] => 0
  | Event.deleteCore :: es => closes es + 1
  | _ :: es => closes es

/-- The conversion `duration_cast<seconds>(d).count()` of a nanosecond duration:
division by `10^9` that rounds toward zero. -/
def toSeconds (d : Int) : Int := Int.tdiv d 1000000000

/-- The record that `main` builds in lines 82-97; `now` is the wall-clock reading
of line 88. -/
def initialActivity (now : Int) : Activity :=
  let activity := Activity.new
  let activity := activity.SetDetails "Artifact Virtual Assistant"
  let activity := activity.SetState "Managing Discord Community"
  let activity := activity.SetType ActivityType.Playing
  let activity := { activity with timestamps := activity.timestamps.SetStart now }
  let activity := { activity with assets := activity.assets.SetLargeImage "artifact_logo" }
  let activity := { activity with assets := activity.assets.SetLargeText "Artifact Virtual System" }
  let activity := { activity with assets := activity.assets.SetSmallImage "online_status" }
  let activity := { activity with assets := activity.assets.SetSmallText "Online and Ready" }
  activity

/-- One statement group of `main`.  `wall` is what `system_clock` shows; the
steady clock shows `s.clock`. -/
def mainStep (sdk : Sdk) (wall : Int) (s : State) : State :=
  match s.pc with
  | Pc.create =>
    let out := s.stdout ++ ["🚀 Initializing Artifact Discord SDK...\n",
      "📱 Application ID: " ++ toString APPLICATION_ID ++ "\n"]
    let result := sdk.Create
    if result ≠ Result.Ok then
      { s with
        stdout := out ++
          ["❌ Failed to initialize Discord SDK: " ++ toString result.toInt ++ "\n"]
        trace := s.trace ++ [Event.Create result]
        pc := Pc.exited 1 }
    else
      { s with
        stdout := out
        trace := s.trace ++ [Event.Create result]
        pc := Pc.setup }
  | Pc.setup =>
    let activity := initialActivity wall
    let cb := sdk.UpdateActivity (submissions s.trace) activity
    { s with
      activity := activity
      stdout := s.stdout ++ ["✅ Discord SDK initialized successfully!\n"] ++
        cb.map OnActivityUpdate ++
        ["🎮 Discord Rich Presence activated!\n", "🔄 SDK running... Press Ctrl+C to stop\n"]
      trace := s.trace ++ [Event.SetLogHook, Event.UpdateActivity activity cb]
      pc := Pc.initTick }
  | Pc.initTick =>
    { s with lastTick := s.clock, lastRead := s.clock, loopStart := s.clock, pc := Pc.head }
  | Pc.head =>
    if s.running then { s with iterations := s.iterations + 1, pc := Pc.drain }
    else { s with loopExit := s.clock, pc := Pc.cleanup }
  | Pc.drain =>
    let cb := sdk.RunCallbacks (drains s.trace)
    { s with
      stdout := s.stdout ++ cb.map OnActivityUpdate
      trace := s.trace ++ [Event.RunCallbacks cb]
      pc := Pc.tick }
  | Pc.tick =>
    let now := s.clock
    if toSeconds (now - s.lastTick) ≥ 30 then
      let currentTime := wall
      let activity := s.activity.SetState "Active since startup"
      let activity := { activity with timestamps := activity.timestamps.SetStart currentTime }
      let cb := sdk.UpdateActivity (submissions s.trace) activity
      { s with
        activity := activity
        stdout := s.stdout ++ cb.map OnActivityUpdate
        trace := s.trace ++ [Event.UpdateActivity activity cb]
        lastTick := now
        lastRead := now
        pc := Pc.sleep }
    else
      { s with lastRead := now, pc := Pc.sleep }
  | Pc.sleep =>
    { s with trace := s.trace ++ [Event.sleep_for 16], pc := Pc.head }
  | Pc.cleanup =>
    { s with
      stdout := s.stdout ++
        ["🔄 Cleaning up Discord SDK...\n", "👋 Discord SDK shutdown complete!\n"]
      trace := s.trace ++ [Event.deleteCore]
      pc := Pc.exited 0 }
  | Pc.exited _ => s

/-- Who runs in a step: `main` executes its next statement group, or a signal is
delivered and `signalHandler` runs. -/
inductive Act
  | main
  | signal (signum : Int)
  deriving DecidableEq, Repr

/-- One step of a run: `dt` nanoseconds of steady-clock time pass, then `act`
takes place while the wall clock shows `wall`. -/
structure Slot where
  dt : Nat
  wall : Int
  act : Act
  deriving DecidableEq, Repr

/-- The step relation, as a function of the step chosen by the environment.
Once `main` has returned the process is over and nothing changes any more. -/
def step (sdk : Sdk) (x : Slot) (s : State) : State :=
  match s.pc with
  | Pc.exited _ => s
  | _ =>
    let s := { s with clock := s.clock + x.dt }
    match x.act with
    | Act.main => mainStep sdk x.wall s
    | Act.signal signum => signalHandler signum s

/-- The state reached from `s` by a sequence of steps. -/
def exec (sdk : Sdk) : State → List Slot → State
  | s, [] => s
  | s, x :: xs => exec sdk (step sdk x s) xs

/-- Number of steps of `main` in a schedule. -/
def mainSteps : List Slot → Nat
  | [] => 0
  | x :: xs => (if x.act = Act.main then 1 else 0) + mainSteps xs

/-- A step of `main` after `dt` nanoseconds, the wall clock showing `wall`. -/
def go (dt : Nat) (wall : Int) : Slot := { dt := dt, wall := wall, act := Act.main }

/-- Delivery of `SIGINT` (signal 2) after `dt` nanoseconds. -/
def sigint (dt : Nat) : Slot := { dt := dt, wall := 0, act := Act.signal 2 }

/-- The statement groups of the loop (lines 107-129). -/
def inLoop : Pc → Bool
  | Pc.head => true
  | Pc.drain => true
  | Pc.tick => true
  | Pc.sleep => true
  | _ => false

/-- How many `RunCallbacks` calls can still follow once `running` is `false`. -/
def drainBudget : Pc → Nat
  | Pc.drain => 1
  | _ => 0

/-- How many `UpdateActivity` calls can still follow once `running` is `false`. -/
def submitBudget : Pc → Nat
  | Pc.create => 1
  | Pc.setup => 1
  | Pc.drain => 1
  | Pc.tick => 1
  | _ => 0

/-- How many sleeps can still follow once `running` is `false`. -/
def sleepBudget : Pc → Nat
  | Pc.drain => 1
  | Pc.tick => 1
  | Pc.sleep => 1
  | _ => 0

/-- How many steps of `main` are left once `running` is `false`: inside the loop the
rest of the iteration, the loop condition and the cleanup; before it the rest of
the start-up, the loop condition and the cleanup. -/
def remaining : Pc → Nat
  | Pc.create => 5
  | Pc.setup => 4
  | Pc.initTick => 3
  | Pc.drain => 5
  | Pc.tick => 4
  | Pc.sleep => 3
  | Pc.head => 2
  | Pc.cleanup => 1
  | _ => 0

/-- A state still at the first statement group, with nothing done yet. -/
def Fresh (s : State) : Prop :=
  s.pc = Pc.create ∧ s.trace = [] ∧ s.iterations = 0

/-- An SDK whose `Create` fails with `ServiceUnavailable`. -/
def unavailableSdk : Sdk :=
  { Create := Result.ServiceUnavailable
    UpdateActivity := fun _ _ => []
    RunCallbacks := fun _ => [] }

/-- The fields of the presence record that `main` sets once, with the values of
lines 83-97, together with `timestamps.end`, which stays as constructed. -/
def Static (a : Activity) : Prop :=
  a.details = "Artifact Virtual Assistant" ∧ a.type = ActivityType.Playing ∧
  a.assets = { largeImage := "artifact_logo", largeText := "Artifact Virtual System",
               smallImage := "online_status", smallText := "Online and Ready" } ∧
  a.timestamps.end_ = 0

/-- An event with the delivered callback codes removed. -/
def Event.erase : Event → Event
  | Event.UpdateActivity a _ => Event.UpdateActivity a []
  | Event.RunCallbacks _ => Event.RunCallbacks []
  | e => e

/-- Agreement of two states on everything but standard output and the callback
codes recorded in the trace. -/
def Agree (s t : State) : Prop :=
  s.pc = t.pc ∧ s.running = t.running ∧ s.activity = t.activity ∧ s.lastTick = t.lastTick ∧
  s.trace.map Event.erase = t.trace.map Event.erase ∧ s.clock = t.clock ∧
  s.lastRead = t.lastRead ∧ s.loopStart = t.loopStart ∧ s.loopExit = t.loopExit ∧
  s.iterations = t.iterations

/-- An SDK whose `Create` succeeds and whose every callback reports a failure:
`RateLimited` from inside `UpdateActivity`, `InternalError` from `RunCallbacks`. -/
def failingSdk : Sdk :=
  { Create := Result.Ok
    UpdateActivity := fun _ _ => [Result.RateLimited]
    RunCallbacks := fun _ => [Result.InternalError] }

/-- The static fields hold in the record once it has been built and in every
record submitted so far. -/
def StaticInv (s : State) : Prop :=
  (∀ a cb, Event.UpdateActivity a cb ∈ s.trace → Static a) ∧
  (s.pc = Pc.create ∨ s.pc = Pc.setup ∨ s.pc = Pc.exited 1 ∨ Static s.activity)

/-- Delivery as the in-repository implementation performs it: every
`UpdateActivity` call has invoked the callback once, with `Ok`, before returning,
and no `RunCallbacks` call has invoked a callback. -/
def Immediate (tr : List Event) : Prop :=
  (∀ a cb, Event.UpdateActivity a cb ∈ tr → cb = [Result.Ok]) ∧
  (∀ cb, Event.RunCallbacks cb ∈ tr → cb = [])

/-- Number of periodic re-submissions in a trace: the `UpdateActivity` calls after
the initial one. -/
def periodic (tr : List Event) : Nat := submissions tr - 1

/-- A run in which one iteration lasts ten minutes: core created, record submitted,
`lastTick` initialised, then one iteration whose clock reading comes 600 s later
and whose sleep lasts 16 ms, then `SIGINT` and the loop condition. -/
def slowRun : List Slot :=
  [go 0 1700000000, go 0 1700000000, go 0 1700000000, go 0 1700000000, go 0 1700000000,
    go 600000000000 1700000600, go 16000000 1700000600, sigint 0, go 0 1700000600]

/-- A run in which every step meets a condition on the state it is taken in. -/
def Admits (ok : State → Slot → Bool) (sdk : Sdk) : State → List Slot → Bool
  | _, [] => true
  | s, x :: xs => ok s x && Admits ok sdk (step sdk x s) xs

/-- Pace `d`: inside the loop no step takes place more than `d` nanoseconds after
the latest reading of the steady clock, so that an iteration advances the clock by
at most `d`. -/
def paced (d : Nat) (s : State) (x : Slot) : Bool :=
  !inLoop s.pc || decide (s.clock + x.dt ≤ s.lastRead + d)

/-- The sleep of line 128 lasts at least 16 ms. -/
def slept (s : State) (x : Slot) : Bool :=
  !(decide (s.pc = Pc.sleep) && decide (x.act = Act.main)) || decide (16000000 ≤ x.dt)

/-- The loop has been left through its condition. -/
def loopLeft (p : Pc) : Prop := p = Pc.cleanup ∨ p = Pc.exited 0

/-- Where the cadence stands, at pace `d`: before the loop the number of
submissions is fixed by the program counter; from the loop on, `lastTick` lies
between `30 s` and `30 s + d` per periodic submission after `loopStart`, the
latest reading is less than 30 s after `lastTick`, and the loop is left at most
`d` after the latest reading. -/
def Cadence (d : Nat) (s : State) : Prop :=
  (s.pc = Pc.create → submissions s.trace = 0) ∧
  (s.pc = Pc.setup → submissions s.trace = 0) ∧
  (s.pc = Pc.initTick → submissions s.trace = 1) ∧
  ((inLoop s.pc = true ∨ loopLeft s.pc) →
    1 ≤ submissions s.trace ∧
    30000000000 * (submissions s.trace : Int) ≤ s.lastTick - s.loopStart + 30000000000 ∧
    s.lastTick - s.loopStart + (30000000000 + (d : Int))
      ≤ (submissions s.trace : Int) * (30000000000 + (d : Int)) ∧
    s.lastTick ≤ s.lastRead ∧ s.lastRead < s.lastTick + 30000000000 ∧
    s.lastRead ≤ s.clock) ∧
  (loopLeft s.pc → s.lastRead ≤ s.loopExit ∧ s.loopExit ≤ s.lastRead + (d : Int))

/-- The statement groups from the loop on. -/
def pastInit : Pc → Bool
  | Pc.create => false
  | Pc.setup => false
  | Pc.initTick => false
  | _ => true

/-- The 65-second scenario: a signal is delivered only from the loop on and only
when at least 65 s have passed since `lastTick` was initialised, and `main` takes
no step of the loop later than 65 s with `running` still `true`. -/
def stopAt65 (s : State) (x : Slot) : Bool :=
  match x.act with
  | Act.signal _ => pastInit s.pc && decide (s.loopStart + 65000000000 ≤ s.clock + x.dt)
  | Act.main => !(inLoop s.pc && s.running) ||
      decide (s.clock + x.dt ≤ s.loopStart + 65000000000)

/-- The 65-second scenario at a pace of at most one second. -/
def scenario65 (s : State) (x : Slot) : Bool :=
  paced 1000000000 s x && stopAt65 s x

/-- Where the 65-second scenario stands: `running` is `true` before the loop; from
the loop on, `running` is `false` only after 65 s, inside the loop the clock is at
most 1 s ahead of the latest reading, and that reading is at most 65 s after the
initialisation of `lastTick`, or at most 66 s once `running` is `false` and the
iteration in progress has read the clock; the loop is left after 65 s and at most
1 s after the latest reading. -/
def Stopping65 (s : State) : Prop :=
  (pastInit s.pc = false → s.running = true) ∧
  (pastInit s.pc = true → s.running = false → s.loopStart + 65000000000 ≤ s.clock) ∧
  (inLoop s.pc = true → s.clock ≤ s.lastRead + 1000000000) ∧
  ((inLoop s.pc = true ∨ loopLeft s.pc) →
    (s.lastRead ≤ s.loopStart + 65000000000 ∨
      (s.running = false ∧ s.pc ≠ Pc.drain ∧ s.pc ≠ Pc.tick ∧
        s.lastRead ≤ s.loopStart + 66000000000))) ∧
  (loopLeft s.pc → s.loopStart + 65000000000 ≤ s.loopExit)

/-- One iteration of one second: loop condition, `RunCallbacks`, the cadence check
one second after the previous reading, and the sleep. -/
def secondLong : List Slot :=
  [go 0 1700000000, go 0 1700000000, go 1000000000 1700000000, go 0 1700000000]

/-- `n` iterations of one second each. -/
def seconds : Nat → List Slot
  | 0 => []
  | n + 1 => secondLong ++ seconds n

/-- The 65-second run: start-up, 65 iterations of one second, `SIGINT`, the loop
condition and the cleanup. -/
def run65 : List Slot :=
  [go 0 1700000000, go 0 1700000000, go 0 1700000000] ++ seconds 65 ++
    [sigint 0, go 0 1700000065, go 0 1700000065]

/-- Early readings: whenever the loop reads the steady clock, less than 30 s have
passed since `lastTick` was initialised. -/
def early (s : State) (x : Slot) : Bool :=
  !(decide (s.pc = Pc.tick) && decide (x.act = Act.main)) ||
    decide (s.clock + x.dt < s.loopStart + 30000000000)

/-- Where a run with early readings stands: from the loop on there has been the
initial submission only and `lastTick` still has its initial value. -/
def Early (s : State) : Prop :=
  (s.pc = Pc.create → submissions s.trace = 0) ∧
  (s.pc = Pc.setup → submissions s.trace = 0) ∧
  (s.pc = Pc.initTick → submissions s.trace = 1) ∧
  ((inLoop s.pc = true ∨ loopLeft s.pc) →
    submissions s.trace = 1 ∧ s.lastTick = s.loopStart)

/-- A run stopped just before 30 s: start-up, a first iteration that reads the
clock after 3 microseconds and sleeps 16 ms, the loop condition 29.98 s later (at
29.996003 s after `lastTick` was initialised), `RunCallbacks`, and `SIGINT` at
29.997004 s. -/
def raceStart : List Slot :=
  [go 0 1700000000, go 0 1700000000, go 0 1700000000, go 1000 1700000000,
    go 1000 1700000000, go 1000 1700000000, go 16000000 1700000000,
    go 29980000000 1700000029, go 1000 1700000029, sigint 1000000]

/-- What follows `raceStart`: the iteration in progress reads the clock at 30.002004 s
and sleeps, then the loop condition and the cleanup. -/
def raceEnd : List Slot :=
  [go 5000000 1700000030, go 16000000 1700000030, go 1000 1700000030, go 1000 1700000030]

/-- One iteration of twenty seconds, 16 ms of which are the sleep. -/
def twentySeconds : List Slot :=
  [go 0 1700000000, go 0 1700000000, go 19984000000 1700000000, go 16000000 1700000000]

/-- `n` iterations of twenty seconds each. -/
def steady20 : Nat → List Slot
  | 0 => []
  | n + 1 => twentySeconds ++ steady20 n

/-- A run of twenty iterations of twenty seconds each, then `SIGINT` and the loop
condition. -/
def driftRun : List Slot :=
  [go 0 1700000000, go 0 1700000000, go 0 1700000000] ++ steady20 20 ++
    [sigint 0, go 0 1700000400]

/-- A run stopped before the first check of the loop condition, three minutes after
`lastTick` was initialised. -/
def stopFirst : List Slot :=
  [go 0 1700000000, go 0 1700000000, sigint 5, go 0 1700000000, sigint 180000000000]

/-- A run stopped during its second iteration: start-up, a first iteration that
reads the clock after 3 microseconds and sleeps 16 ms, then the loop condition,
`RunCallbacks`, and `SIGINT` one millisecond later. -/
def earlyStart : List Slot :=
  [go 0 1700000000, go 0 1700000000, go 0 1700000000, go 1000 1700000000,
    go 1000 1700000000, go 1000 1700000000, go 16000000 1700000000,
    go 1000 1700000000, go 1000 1700000000, sigint 1000000]

/-- What follows `earlyStart`: the iteration in progress reads the clock at
29.017005 s after `lastTick` was initialised and sleeps, then the loop condition,
the cleanup, and one more turn of the scheduler. -/
def earlyEnd : List Slot :=
  [go 29000000000 1700000029, go 16000000 1700000029, go 1000 1700000029,
    go 1000 1700000029, go 1000 1700000029]

/-- Liveness of the program counter: `main` has not returned 1. -/
def Alive (p : Pc) : Prop := ∀ c : Int, p = Pc.exited c → c = 0

/-! ## Basic facts about the machine -/

theorem exec_append (sdk : Sdk) (xs ys : List Slot) (s : State) :
    exec sdk s (xs ++ ys) = exec sdk (exec sdk s xs) ys := by
  induction xs generalizing s with
  | nil => rfl
  | cons x xs ih => simp [exec, ih]

theorem step_exited (sdk : Sdk) (x : Slot) (s : State) (c : Int) (h : s.pc = Pc.exited c) :
    step sdk x s = s := by
  simp [step, h]

theorem exec_exited (sdk : Sdk) (xs : List Slot) (s : State) (c : Int)
    (h : s.pc = Pc.exited c) : exec sdk s xs = s := by
  induction xs with
  | nil => rfl
  | cons x xs ih => simp [exec, step_exited sdk x s c h, ih]

theorem submissions_append (a b : List Event) :
    submissions (a ++ b) = submissions a + submissions b := by
  induction a with
  | nil => simp [submissions]
  | cons e a ih => cases e <;> simp [submissions, ih] <;> omega

theorem drains_append (a b : List Event) : drains (a ++ b) = drains a + drains b := by
  induction a with
  | nil => simp [drains]
  | cons e a ih => cases e <;> simp [drains, ih] <;> omega

theorem sleeps_append (a b : List Event) : sleeps (a ++ b) = sleeps a + sleeps b := by
  induction a with
  | nil => simp [sleeps]
  | cons e a ih => cases e <;> simp [sleeps, ih] <;> omega

theorem closes_append (a b : List Event) : closes (a ++ b) = closes a + closes b := by
  induction a with
  | nil => simp [closes]
  | cons e a ih => cases e <;> simp [closes, ih] <;> omega

theorem fresh_signal (sdk : Sdk) (x : Slot) (n : Int) (s : State) (h : Fresh s)
    (hx : x.act = Act.signal n) : Fresh (step sdk x s) := by
  obtain ⟨h1, h2, h3⟩ := h
  simp [step, h1, hx, signalHandler, Fresh, h2, h3]

theorem fresh_main_fail (sdk : Sdk) (x : Slot) (s : State) (h : Fresh s)
    (hx : x.act = Act.main) (hr : sdk.Create ≠ Result.Ok) :
    (step sdk x s).pc = Pc.exited 1 ∧ (step sdk x s).trace = [Event.Create sdk.Create] ∧
      (step sdk x s).iterations = 0 := by
  obtain ⟨h1, h2, h3⟩ := h
  simp [step, h1, hx, mainStep, hr, h2, h3]

theorem fresh_exec_fail (sdk : Sdk) (hr : sdk.Create ≠ Result.Ok) (sched : List Slot) :
    ∀ s : State, Fresh s → 1 ≤ mainSteps sched →
      (exec sdk s sched).pc = Pc.exited 1 ∧
      (exec sdk s sched).trace = [Event.Create sdk.Create] ∧
      (exec sdk s sched).iterations = 0 := by
  induction sched with
  | nil => intro s _ h; simp [mainSteps] at h
  | cons x xs ih =>
    intro s hs hm
    cases hx : x.act with
    | main =>
      have h := fresh_main_fail sdk x s hs hx hr
      simp only [exec]
      rw [exec_exited sdk xs _ 1 h.1]
      exact h
    | signal n =>
      simp only [exec]
      apply ih _ (fresh_signal sdk x n s hs hx)
      simpa [mainSteps, hx] using hm

/-- Preservation of a property of states along every run. -/
theorem exec_preserves (sdk : Sdk) (I : State → Prop)
    (hstep : ∀ (x : Slot) (s : State), I s → I (step sdk x s)) :
    ∀ (sched : List Slot) (s : State), I s → I (exec sdk s sched) := by
  intro sched
  induction sched with
  | nil => intro s h; exact h
  | cons x xs ih => intro s h; exact ih _ (hstep x s h)

theorem mainStep_running (sdk : Sdk) (wall : Int) (s : State) :
    (mainStep sdk wall s).running = s.running := by
  unfold mainStep
  split <;> (try dsimp only) <;> (try split) <;> rfl

theorem signalHandler_running (signum : Int) (s : State) :
    (signalHandler signum s).running = false := rfl

theorem step_running_false (sdk : Sdk) (x : Slot) (s : State) (h : s.running = false) :
    (step sdk x s).running = false := by
  unfold step
  split
  · exact h
  · split
    · rw [mainStep_running]; exact h
    · rfl

theorem exec_running_false (sdk : Sdk) (sched : List Slot) (s : State)
    (h : s.running = false) : (exec sdk s sched).running = false :=
  exec_preserves sdk (fun t => t.running = false) (fun x t ht => step_running_false sdk x t ht)
    sched s h

theorem iterate_signalHandler_running (signum : Int) (n : Nat) (hn : 1 ≤ n) (s : State) :
    ((signalHandler signum)^[n] s).running = false := by
  obtain ⟨m, rfl⟩ : ∃ m, n = m + 1 := ⟨n - 1, by omega⟩
  rw [Function.iterate_succ_apply']
  rfl

/-- What one step can still add once `running` is `false`. -/
theorem step_stopping (sdk : Sdk) (x : Slot) (s : State) (h : s.running = false) :
    (step sdk x s).iterations = s.iterations ∧
    drains (step sdk x s).trace + drainBudget (step sdk x s).pc
      ≤ drains s.trace + drainBudget s.pc ∧
    submissions (step sdk x s).trace + submitBudget (step sdk x s).pc
      ≤ submissions s.trace + submitBudget s.pc ∧
    sleeps (step sdk x s).trace + sleepBudget (step sdk x s).pc
      ≤ sleeps s.trace + sleepBudget s.pc := by
  obtain ⟨pc, running, activity, lastTick, out, trace, clock, lastRead, loopStart, loopExit,
    iterations⟩ := s
  obtain ⟨dt, wall, act⟩ := x
  simp only at h
  subst h
  cases pc <;> cases act <;>
    simp [step, mainStep, signalHandler, drainBudget, submitBudget, sleepBudget,
      drains_append, submissions_append, sleeps_append, drains, submissions, sleeps] <;>
    split_ifs <;>
    simp [drainBudget, submitBudget, sleepBudget,
      drains_append, submissions_append, sleeps_append, drains, submissions, sleeps]

theorem exec_stopping (sdk : Sdk) (sched : List Slot) (s : State) (h : s.running = false) :
    (exec sdk s sched).iterations = s.iterations ∧
    drains (exec sdk s sched).trace + drainBudget (exec sdk s sched).pc
      ≤ drains s.trace + drainBudget s.pc ∧
    submissions (exec sdk s sched).trace + submitBudget (exec sdk s sched).pc
      ≤ submissions s.trace + submitBudget s.pc ∧
    sleeps (exec sdk s sched).trace + sleepBudget (exec sdk s sched).pc
      ≤ sleeps s.trace + sleepBudget s.pc := by
  have key := exec_preserves sdk
    (fun t => t.running = false ∧ t.iterations = s.iterations ∧
      drains t.trace + drainBudget t.pc ≤ drains s.trace + drainBudget s.pc ∧
      submissions t.trace + submitBudget t.pc ≤ submissions s.trace + submitBudget s.pc ∧
      sleeps t.trace + sleepBudget t.pc ≤ sleeps s.trace + sleepBudget s.pc)
    (fun x t ht => by
      obtain ⟨h1, h2, h3, h4, h5⟩ := ht
      obtain ⟨k2, k3, k4, k5⟩ := step_stopping sdk x t h1
      exact ⟨step_running_false sdk x t h1, by omega, by omega, by omega, by omega⟩)
    sched s ⟨h, rfl, le_refl _, le_refl _, le_refl _⟩
  exact key.2

/-- One step of the wind-down: with `running` false, a step taken inside the loop
or at the cleanup either is a signal and changes neither the program counter nor
the trace, or is a step of `main` that uses up one of the remaining steps and
adds no `delete core` unless it is the cleanup itself. -/
theorem step_wind_down (sdk : Sdk) (x : Slot) (s : State) (h : s.running = false)
    (hpc : inLoop s.pc = true ∨ s.pc = Pc.cleanup) :
    (x.act ≠ Act.main → (step sdk x s).pc = s.pc ∧ (step sdk x s).trace = s.trace) ∧
    (x.act = Act.main → s.pc = Pc.cleanup →
      (step sdk x s).pc = Pc.exited 0 ∧ (step sdk x s).trace = s.trace ++ [Event.deleteCore]) ∧
    (x.act = Act.main → s.pc ≠ Pc.cleanup →
      (inLoop (step sdk x s).pc = true ∨ (step sdk x s).pc = Pc.cleanup) ∧
      remaining (step sdk x s).pc + 1 = remaining s.pc ∧
      ∃ mid, (step sdk x s).trace = s.trace ++ mid ∧ closes mid = 0) := by
  obtain ⟨pc, running, activity, lastTick, out, trace, clock, lastRead, loopStart, loopExit,
    iterations⟩ := s
  obtain ⟨dt, wall, act⟩ := x
  simp only at h
  subst h
  cases pc <;> cases act <;>
    simp [step, mainStep, signalHandler, inLoop, remaining, closes] at hpc ⊢
  split_ifs <;> simp [closes]

theorem exec_wind_down (sdk : Sdk) (sched : List Slot) :
    ∀ s : State, s.running = false → (inLoop s.pc = true ∨ s.pc = Pc.cleanup) →
      remaining s.pc ≤ mainSteps sched →
      (exec sdk s sched).pc = Pc.exited 0 ∧
      ∃ mid, (exec sdk s sched).trace = s.trace ++ mid ++ [Event.deleteCore] ∧
        closes mid = 0 := by
  induction sched with
  | nil =>
    intro s _ hpc hm
    simp only [mainSteps] at hm
    rcases hpc with hpc | hpc
    · cases hp : s.pc <;> simp [hp, inLoop, remaining] at hpc hm
    · simp [hpc, remaining] at hm
  | cons x xs ih =>
    intro s h hpc hm
    obtain ⟨hsig, hclean, hmain⟩ := step_wind_down sdk x s h hpc
    simp only [exec]
    by_cases hx : x.act = Act.main
    · by_cases hc : s.pc = Pc.cleanup
      · obtain ⟨h1, h2⟩ := hclean hx hc
        rw [exec_exited sdk xs _ 0 h1]
        exact ⟨h1, [], by simp [h2], rfl⟩
      · obtain ⟨h1, h2, mid, h3, h4⟩ := hmain hx hc
        have hm2 : remaining (step sdk x s).pc ≤ mainSteps xs := by
          simp only [mainSteps, hx, if_true] at hm
          omega
        obtain ⟨k1, mid2, k2, k3⟩ := ih _ (step_running_false sdk x s h) h1 hm2
        refine ⟨k1, mid ++ mid2, ?_, ?_⟩
        · rw [k2, h3]; simp
        · rw [closes_append, h4, k3]
    · obtain ⟨h1, h2⟩ := hsig hx
      have hm2 : remaining (step sdk x s).pc ≤ mainSteps xs := by
        simp only [mainSteps, hx, if_false] at hm
        rw [h1]; omega
      obtain ⟨k1, mid2, k2, k3⟩ := ih _ (step_running_false sdk x s h) (by rw [h1]; exact hpc) hm2
      exact ⟨k1, mid2, by rw [k2, h2], k3⟩

/-- In every state of a run, `delete core` has happened once if `main` has
returned 0 and not at all otherwise, and `main` is past its first statement group
only if `Create` returned `Ok` or `main` has returned 1. -/
theorem step_closes (sdk : Sdk) (x : Slot) (s : State)
    (h : closes s.trace = (if s.pc = Pc.exited 0 then 1 else 0) ∧
      (s.pc = Pc.create ∨ s.pc = Pc.exited 1 ∨ sdk.Create = Result.Ok)) :
    closes (step sdk x s).trace = (if (step sdk x s).pc = Pc.exited 0 then 1 else 0) ∧
      ((step sdk x s).pc = Pc.create ∨ (step sdk x s).pc = Pc.exited 1 ∨
        sdk.Create = Result.Ok) := by
  obtain ⟨pc, running, activity, lastTick, out, trace, clock, lastRead, loopStart, loopExit,
    iterations⟩ := s
  obtain ⟨dt, wall, act⟩ := x
  cases pc <;> cases act <;>
    simp [step, mainStep, signalHandler, closes, closes_append] at h ⊢ <;>
    (try split_ifs) <;> simp_all [closes, closes_append]

theorem exec_closes (sdk : Sdk) (sched : List Slot) :
    closes (exec sdk init sched).trace =
      (if (exec sdk init sched).pc = Pc.exited 0 then 1 else 0) ∧
    ((exec sdk init sched).pc = Pc.create ∨ (exec sdk init sched).pc = Pc.exited 1 ∨
      sdk.Create = Result.Ok) :=
  exec_preserves sdk
    (fun t => closes t.trace = (if t.pc = Pc.exited 0 then 1 else 0) ∧
      (t.pc = Pc.create ∨ t.pc = Pc.exited 1 ∨ sdk.Create = Result.Ok))
    (step_closes sdk) sched init ⟨rfl, Or.inl rfl⟩

/-- From the loop condition with `running` false, two steps of `main` end the run
and add `delete core` and nothing else. -/
theorem exec_from_head (sdk : Sdk) (sched : List Slot) :
    ∀ s : State, s.running = false → (s.pc = Pc.head ∨ s.pc = Pc.cleanup) →
      remaining s.pc ≤ mainSteps sched →
      (exec sdk s sched).pc = Pc.exited 0 ∧
      (exec sdk s sched).trace = s.trace ++ [Event.deleteCore] := by
  induction sched with
  | nil =>
    intro s _ hpc hm
    rcases hpc with hpc | hpc <;> simp [hpc, remaining, mainSteps] at hm
  | cons x xs ih =>
    intro s h hpc hm
    have hpc2 : inLoop s.pc = true ∨ s.pc = Pc.cleanup := by
      rcases hpc with hpc | hpc
      · left; simp [hpc, inLoop]
      · right; exact hpc
    obtain ⟨hsig, hclean, hmain⟩ := step_wind_down sdk x s h hpc2
    simp only [exec]
    by_cases hx : x.act = Act.main
    · rcases hpc with hpc | hpc
      · have hstep : (step sdk x s).pc = Pc.cleanup ∧ (step sdk x s).trace = s.trace := by
          obtain ⟨pc, running, activity, lastTick, out, trace, clock, lastRead, loopStart,
            loopExit, iterations⟩ := s
          obtain ⟨dt, wall, act⟩ := x
          simp only at h hpc hx
          subst h hpc hx
          simp [step, mainStep]
        have hm2 : remaining (step sdk x s).pc ≤ mainSteps xs := by
          simp only [mainSteps, hx, if_true, hpc, remaining] at hm
          rw [hstep.1]; simp only [remaining]; omega
        obtain ⟨k1, k2⟩ := ih _ (step_running_false sdk x s h) (Or.inr hstep.1) hm2
        exact ⟨k1, by rw [k2, hstep.2]⟩
      · obtain ⟨h1, h2⟩ := hclean hx hpc
        rw [exec_exited sdk xs _ 0 h1]
        exact ⟨h1, h2⟩
    · obtain ⟨h1, h2⟩ := hsig hx
      have hm2 : remaining (step sdk x s).pc ≤ mainSteps xs := by
        simp only [mainSteps, hx, if_false] at hm
        rw [h1]; omega
      obtain ⟨k1, k2⟩ := ih _ (step_running_false sdk x s h) (by rw [h1]; exact hpc) hm2
      exact ⟨k1, by rw [k2, h2]⟩

theorem toSeconds_ge (d : Int) : 30 ≤ toSeconds d ↔ 30000000000 ≤ d := by
  unfold toSeconds
  rcases le_or_lt 0 d with h | h
  · rw [Int.tdiv_eq_ediv h (by norm_num)]; omega
  · have h1 : (-d).tdiv 1000000000 = (-d) / 1000000000 :=
      Int.tdiv_eq_ediv (by omega) (by norm_num)
    have h2 : d.tdiv 1000000000 = -((-d).tdiv 1000000000) := by
      rw [Int.neg_tdiv, neg_neg]
    have h3 : 0 ≤ (-d) / 1000000000 := Int.ediv_nonneg (by omega) (by norm_num)
    omega

theorem static_initial (w : Int) : Static (initialActivity w) := ⟨rfl, rfl, rfl, rfl⟩

theorem static_tick (a : Activity) (w : Int) (t : String) (h : Static a) :
    Static { details := (a.SetState t).details, state := (a.SetState t).state,
             type := (a.SetState t).type,
             timestamps := (a.SetState t).timestamps.SetStart w,
             assets := (a.SetState t).assets } :=
  ⟨h.1, h.2.1, h.2.2.1, h.2.2.2⟩

theorem step_static (sdk : Sdk) (x : Slot) (s : State) (h : StaticInv s) :
    StaticInv (step sdk x s) := by
  obtain ⟨pc, running, activity, lastTick, out, trace, clock, lastRead, loopStart, loopExit,
    iterations⟩ := s
  obtain ⟨dt, wall, act⟩ := x
  obtain ⟨h1, h2⟩ := h
  simp only at h1 h2
  cases pc <;> cases act <;>
    simp [step, mainStep, signalHandler, StaticInv] at h2 ⊢ <;>
    (try split_ifs) <;> (try simp) <;> (try assumption) <;> (try exact ⟨h1, h2⟩)
  · exact ⟨fun a cb h => h.elim (h1 a cb) (fun e => e.1 ▸ static_initial wall),
      static_initial wall⟩
  · have hs := static_tick activity wall "Active since startup" h2
    exact ⟨fun a cb h => h.elim (h1 a cb) (fun e => e.1 ▸ hs), hs⟩

theorem exec_static (sdk : Sdk) (sched : List Slot) : StaticInv (exec sdk init sched) :=
  exec_preserves sdk StaticInv (step_static sdk) sched init
    ⟨fun a cb h => by simp [init] at h, Or.inl rfl⟩

/-- What a step of `main` inside the loop does to the record, to `lastTick` and
to the trace. -/
theorem step_tick (sdk : Sdk) (x : Slot) (s : State) (hl : inLoop s.pc = true)
    (hx : x.act = Act.main) :
    ((s.pc = Pc.tick ∧ 30 ≤ toSeconds (s.clock + x.dt - s.lastTick)) →
      (step sdk x s).activity.state = "Active since startup" ∧
      (step sdk x s).activity.timestamps.start = x.wall ∧
      (step sdk x s).trace = s.trace ++ [Event.UpdateActivity (step sdk x s).activity
        (sdk.UpdateActivity (submissions s.trace) (step sdk x s).activity)] ∧
      (step sdk x s).lastTick = s.clock + x.dt) ∧
    (¬ (s.pc = Pc.tick ∧ 30 ≤ toSeconds (s.clock + x.dt - s.lastTick)) →
      (step sdk x s).activity = s.activity ∧
      (step sdk x s).lastTick = s.lastTick ∧
      submissions (step sdk x s).trace = submissions s.trace) ∧
    (step sdk x s).activity.details = s.activity.details ∧
    (step sdk x s).activity.type = s.activity.type ∧
    (step sdk x s).activity.assets = s.activity.assets ∧
    (step sdk x s).activity.timestamps.end_ = s.activity.timestamps.end_ := by
  obtain ⟨pc, running, activity, lastTick, out, trace, clock, lastRead, loopStart, loopExit,
    iterations⟩ := s
  obtain ⟨dt, wall, act⟩ := x
  simp only at hx hl
  subst hx
  cases pc <;> simp [inLoop] at hl <;>
    simp [step, mainStep, submissions_append, submissions] <;>
    split_ifs <;>
    simp_all [Activity.SetState, ActivityTimestamps.SetStart, submissions_append, submissions]


theorem submissions_erase (tr : List Event) :
    submissions (tr.map Event.erase) = submissions tr := by
  induction tr with
  | nil => rfl
  | cons e es ih => cases e <;> simp [submissions, Event.erase, ih]

theorem step_immediate (x : Slot) (s : State) (h : Immediate s.trace) :
    Immediate (step stub x s).trace := by
  obtain ⟨pc, running, activity, lastTick, out, trace, clock, lastRead, loopStart, loopExit,
    iterations⟩ := s
  obtain ⟨dt, wall, act⟩ := x
  obtain ⟨h1, h2⟩ := h
  simp only at h1 h2
  cases pc <;> cases act <;>
    simp [step, mainStep, signalHandler, Immediate, stub] <;>
    (try split_ifs) <;> (try simp) <;> (try exact ⟨h1, h2⟩)
  · exact ⟨fun a cb h => h.elim (h1 a cb) (fun e => e.2), h2⟩
  · exact ⟨h1, fun cb h => h.elim (h2 cb) id⟩
  · exact ⟨fun a cb h => h.elim (h1 a cb) (fun e => e.2), h2⟩

theorem step_agree (sdk1 sdk2 : Sdk) (hc : sdk1.Create = sdk2.Create) (x : Slot)
    (s t : State) (h : Agree s t) : Agree (step sdk1 x s) (step sdk2 x t) := by
  obtain ⟨pc, running, activity, lastTick, out, trace, clock, lastRead, loopStart, loopExit,
    iterations⟩ := s
  obtain ⟨pc2, running2, activity2, lastTick2, out2, trace2, clock2, lastRead2, loopStart2,
    loopExit2, iterations2⟩ := t
  obtain ⟨dt, wall, act⟩ := x
  obtain ⟨h1, h2, h3, h4, h5, h6, h7, h8, h9, h10⟩ := h
  simp only at h1 h2 h3 h4 h5 h6 h7 h8 h9 h10
  subst h1 h2 h3 h4 h6 h7 h8 h9 h10
  cases pc <;> cases act <;>
    simp [step, mainStep, signalHandler, Agree, hc, h5, Event.erase] <;>
    (try split_ifs) <;> simp [h5, Event.erase]

theorem exec_agree (sdk1 sdk2 : Sdk) (hc : sdk1.Create = sdk2.Create) (sched : List Slot) :
    ∀ s t : State, Agree s t → Agree (exec sdk1 s sched) (exec sdk2 t sched) := by
  induction sched with
  | nil => intro s t h; exact h
  | cons x xs ih => intro s t h; exact ih _ _ (step_agree sdk1 sdk2 hc x s t h)

/-- Preservation of a property along a run all of whose steps meet a condition. -/
theorem exec_preserves_admitted (sdk : Sdk) (ok : State → Slot → Bool) (I : State → Prop)
    (hstep : ∀ (x : Slot) (s : State), I s → ok s x = true → I (step sdk x s)) :
    ∀ (sched : List Slot) (s : State), I s → Admits ok sdk s sched = true →
      I (exec sdk s sched) := by
  intro sched
  induction sched with
  | nil => intro s h _; exact h
  | cons x xs ih =>
    intro s h ha
    simp only [Admits, Bool.and_eq_true] at ha
    exact ih _ (hstep x s h ha.1) ha.2

theorem step_cadence (sdk : Sdk) (d : Nat) (x : Slot) (s : State) (h : Cadence d s)
    (hp : paced d s x = true) : Cadence d (step sdk x s) := by
  obtain ⟨pc, running, activity, lastTick, out, trace, clock, lastRead, loopStart, loopExit,
    iterations⟩ := s
  obtain ⟨dt, wall, act⟩ := x
  cases pc <;> cases act <;>
    simp only [step, mainStep, signalHandler] <;> (try split_ifs) <;>
    simp [Cadence, paced, inLoop, loopLeft, toSeconds_ge,
      submissions_append, submissions] at * <;> (try omega)
  · simp [h]
  · obtain ⟨h0, h1, h2, h3, h4, h5⟩ := h
    constructor <;> linarith

theorem exec_cadence (sdk : Sdk) (d : Nat) (sched : List Slot)
    (hp : Admits (paced d) sdk init sched = true) : Cadence d (exec sdk init sched) :=
  exec_preserves_admitted sdk (paced d) (Cadence d) (step_cadence sdk d) sched init
    (by simp [Cadence, init, submissions, inLoop, loopLeft]) hp


theorem step_stopping65 (sdk : Sdk) (x : Slot) (s : State) (h : Stopping65 s)
    (hp : scenario65 s x = true) : Stopping65 (step sdk x s) := by
  obtain ⟨pc, running, activity, lastTick, out, trace, clock, lastRead, loopStart, loopExit,
    iterations⟩ := s
  obtain ⟨dt, wall, act⟩ := x
  cases pc <;> cases act <;> cases running <;>
    simp only [step, mainStep, signalHandler] <;> (try split_ifs) <;>
    simp [Stopping65, scenario65, stopAt65, paced, inLoop, loopLeft, pastInit,
      toSeconds_ge] at * <;> (try omega)

theorem exec_stopping65 (sdk : Sdk) (sched : List Slot)
    (hp : Admits scenario65 sdk init sched = true) :
    Cadence 1000000000 (exec sdk init sched) ∧ Stopping65 (exec sdk init sched) :=
  exec_preserves_admitted sdk scenario65
    (fun t => Cadence 1000000000 t ∧ Stopping65 t)
    (fun x t ht hx => by
      have hx2 : paced 1000000000 t x = true ∧ stopAt65 t x = true := by
        simpa [scenario65] using hx
      exact ⟨step_cadence sdk 1000000000 x t ht.1 hx2.1, step_stopping65 sdk x t ht.2 hx⟩)
    sched init
    ⟨by simp [Cadence, init, submissions, inLoop, loopLeft],
      by simp [Stopping65, init, inLoop, loopLeft, pastInit]⟩ hp

theorem step_early (sdk : Sdk) (x : Slot) (s : State) (h : Early s)
    (hp : early s x = true) : Early (step sdk x s) := by
  obtain ⟨pc, running, activity, lastTick, out, trace, clock, lastRead, loopStart, loopExit,
    iterations⟩ := s
  obtain ⟨dt, wall, act⟩ := x
  cases pc <;> cases act <;>
    simp only [step, mainStep, signalHandler] <;> (try split_ifs) <;>
    simp [Early, early, inLoop, loopLeft, toSeconds_ge, submissions_append,
      submissions] at * <;> (try omega)

theorem step_alive (sdk : Sdk) (hc : sdk.Create = Result.Ok) (x : Slot) (s : State)
    (h : Alive s.pc) : Alive (step sdk x s).pc := by
  obtain ⟨pc, running, activity, lastTick, out, trace, clock, lastRead, loopStart, loopExit,
    iterations⟩ := s
  obtain ⟨dt, wall, act⟩ := x
  cases pc <;> cases act <;>
    simp only [step, mainStep, signalHandler] <;> (try split_ifs) <;>
    simp_all [Alive]

theorem exec_alive (sdk : Sdk) (hc : sdk.Create = Result.Ok) (sched : List Slot) :
    Alive (exec sdk init sched).pc :=
  exec_preserves sdk (fun t => Alive t.pc) (step_alive sdk hc) sched init
    (by simp [Alive, init])

/-- One step towards the end once `running` is `false` and `Create` has returned
`Ok`: a signal leaves the program counter alone, a step of `main` uses up one of
the remaining steps. -/
theorem step_togo (sdk : Sdk) (hc : sdk.Create = Result.Ok) (x : Slot) (s : State)
    (h : s.running = false) (ha : Alive s.pc) :
    (x.act ≠ Act.main → (step sdk x s).pc = s.pc) ∧
    (x.act = Act.main → remaining (step sdk x s).pc + 1 = remaining s.pc ∨
      s.pc = Pc.exited 0) := by
  obtain ⟨pc, running, activity, lastTick, out, trace, clock, lastRead, loopStart, loopExit,
    iterations⟩ := s
  obtain ⟨dt, wall, act⟩ := x
  simp only at h
  subst h
  cases pc <;> cases act <;>
    simp only [step, mainStep, signalHandler] <;> (try split_ifs) <;>
    simp_all [Alive, remaining]

theorem exec_terminates (sdk : Sdk) (hc : sdk.Create = Result.Ok) (sched : List Slot) :
    ∀ s : State, s.running = false → Alive s.pc → remaining s.pc ≤ mainSteps sched →
      (exec sdk s sched).pc = Pc.exited 0 := by
  induction sched with
  | nil =>
    intro s _ ha hm
    simp only [mainSteps] at hm
    simp only [exec]
    cases hp : s.pc <;> simp [hp, remaining] at hm
    rw [ha _ hp]
  | cons x xs ih =>
    intro s h ha hm
    obtain ⟨hsig, hmain⟩ := step_togo sdk hc x s h ha
    simp only [exec]
    apply ih _ (step_running_false sdk x s h) (step_alive sdk hc x s ha)
    by_cases hx : x.act = Act.main
    · simp only [mainSteps, hx, if_true] at hm
      rcases hmain hx with h1 | h1
      · omega
      · rw [step_exited sdk x s 0 h1, h1]; simp [remaining]
    · simp only [mainSteps, hx, if_false] at hm
      rw [hsig hx]; omega

theorem exec_early (sdk : Sdk) (sched : List Slot)
    (hp : Admits early sdk init sched = true) : Early (exec sdk init sched) :=
  exec_preserves_admitted sdk early Early (step_early sdk) sched init
    (by simp [Early, init, submissions, inLoop, loopLeft]) hp

/-! ## Claims -/

/-- C1 (fatal startup): when `Core::Create` returns any code other than `Ok` (there
are 43 of them), then in every run in which `main` gets to execute, `main` returns
exit code 1 and the only call it has made is `Create`: no `UpdateActivity`, no
`RunCallbacks`, no loop iteration, no sleep and no `delete core`. -/
theorem fatal_startup (sdk : Sdk) (sched : List Slot)
    (hr : sdk.Create ≠ Result.Ok) (hm : 1 ≤ mainSteps sched) :
    (Finset.univ.filter (fun r : Result => r ≠ Result.Ok)).card = 43 ∧
    (exec sdk init sched).pc = Pc.exited 1 ∧
    (exec sdk init sched).trace = [Event.Create sdk.Create] ∧
    submissions (exec sdk init sched).trace = 0 ∧
    drains (exec sdk init sched).trace = 0 ∧
    sleeps (exec sdk init sched).trace = 0 ∧
    closes (exec sdk init sched).trace = 0 ∧
    (exec sdk init sched).iterations = 0 := by
  have h := fresh_exec_fail sdk hr sched init ⟨rfl, rfl, rfl⟩ hm
  refine ⟨by decide, h.1, h.2.1, ?_, ?_, ?_, ?_, h.2.2⟩ <;>
    simp [h.2.1, submissions, drains, sleeps, closes]

/-- Instance of `fatal_startup`: `Create` fails with `ServiceUnavailable`, a signal arrives first. -/
theorem fatal_startup_witness :
    (exec unavailableSdk init [sigint 5, go 7 1700000000, go 3 1700000000]).pc = Pc.exited 1 ∧
    (exec unavailableSdk init [sigint 5, go 7 1700000000, go 3 1700000000]).trace =
      [Event.Create Result.ServiceUnavailable] :=
  have h := fatal_startup unavailableSdk [sigint 5, go 7 1700000000, go 3 1700000000]
    (by decide) (by decide)
  ⟨h.2.1, h.2.2.1⟩

/-- C8 (the latch is terminal, stopping is idempotent): `running` starts `true`; no
statement of `main` writes it and `signalHandler` writes `false`; so from a state
in which `running` is `false` every later state of every run has it `false`; and
for every signal number and every `n ≥ 1`, `n` applications of `signalHandler`
leave `running` as one application does, namely `false`. -/
theorem latch_terminal (sdk : Sdk) (s : State) (sched : List Slot) (signum : Int) (n : Nat)
    (hs : s.running = false) (hn : 1 ≤ n) :
    init.running = true ∧
    (∀ (wall : Int) (t : State), (mainStep sdk wall t).running = t.running) ∧
    (∀ (sig : Int) (t : State), (signalHandler sig t).running = false) ∧
    (exec sdk s sched).running = false ∧
    (∀ t : State, ((signalHandler signum)^[n] t).running = (signalHandler signum t).running) ∧
    (∀ t : State, ((signalHandler signum)^[n] t).running = false) :=
  ⟨rfl, mainStep_running sdk, signalHandler_running, exec_running_false sdk sched s hs,
    fun t => by rw [iterate_signalHandler_running signum n hn t, signalHandler_running],
    iterate_signalHandler_running signum n hn⟩

/-- Instance of `latch_terminal`: a run stopped in its first iteration, and three deliveries of `SIGTERM`. -/
theorem latch_terminal_witness :
    (exec stub (exec stub init [go 1 0, go 1 0, go 1 0, go 1 0, sigint 1])
      [go 1 0, go 1 0, go 1 0, sigint 1, go 1 0]).running = false ∧
    ((signalHandler 15)^[3] init).running = (signalHandler 15 init).running :=
  have h := latch_terminal stub (exec stub init [go 1 0, go 1 0, go 1 0, go 1 0, sigint 1])
    [go 1 0, go 1 0, go 1 0, sigint 1, go 1 0] 15 3 (by decide) (by decide)
  ⟨h.2.2.2.1, h.2.2.2.2.1 init⟩

/-- C9 (bounded-latency stop): from any state in which `running` is `false`, in
every continuation of the run (signals included) no loop iteration begins any
more, and at most one further `RunCallbacks` call, one further `UpdateActivity`
call and one further sleep take place; if the state is inside the loop, then as
soon as `main` has taken the at most five steps left to it the loop has exited,
`delete core` has been the last action and `main` has returned 0. -/
theorem bounded_latency_stop (sdk : Sdk) (s : State) (sched : List Slot)
    (hs : s.running = false) :
    (exec sdk s sched).iterations = s.iterations ∧
    drains (exec sdk s sched).trace ≤ drains s.trace + 1 ∧
    submissions (exec sdk s sched).trace ≤ submissions s.trace + 1 ∧
    sleeps (exec sdk s sched).trace ≤ sleeps s.trace + 1 ∧
    (inLoop s.pc = true → 5 ≤ mainSteps sched →
      (exec sdk s sched).pc = Pc.exited 0 ∧
      ∃ mid, (exec sdk s sched).trace = s.trace ++ mid ++ [Event.deleteCore] ∧
        closes mid = 0) := by
  obtain ⟨h1, h2, h3, h4⟩ := exec_stopping sdk sched s hs
  have b1 : drainBudget s.pc ≤ 1 := by cases s.pc <;> simp [drainBudget]
  have b2 : submitBudget s.pc ≤ 1 := by cases s.pc <;> simp [submitBudget]
  have b3 : sleepBudget s.pc ≤ 1 := by cases s.pc <;> simp [sleepBudget]
  refine ⟨h1, by omega, by omega, by omega, ?_⟩
  intro hl hm
  have hr : remaining s.pc ≤ 5 := by cases s.pc <;> simp [remaining]
  exact exec_wind_down sdk sched s hs (Or.inl hl) (by omega)

/-- Instance of `bounded_latency_stop`: a stop during the first iteration, whose clock reading comes 40 s later. -/
theorem bounded_latency_stop_witness :
    (exec stub (exec stub init [go 1 0, go 1 0, go 1 0, go 1 0, sigint 1])
      [go 1 0, sigint 3, go 40000000000 0, go 1 0, go 1 0, go 1 0]).iterations = 1 ∧
    (exec stub (exec stub init [go 1 0, go 1 0, go 1 0, go 1 0, sigint 1])
      [go 1 0, sigint 3, go 40000000000 0, go 1 0, go 1 0, go 1 0]).pc = Pc.exited 0 :=
  have h := bounded_latency_stop stub (exec stub init [go 1 0, go 1 0, go 1 0, go 1 0, sigint 1])
    [go 1 0, sigint 3, go 40000000000 0, go 1 0, go 1 0, go 1 0] (by decide)
  ⟨h.1, (h.2.2.2.2 (by decide) (by decide)).1⟩

/-- C2 (clean shutdown): whenever a run has reached the loop condition with
`running` false, `Create` had returned `Ok`, no `delete core` has happened yet,
and once `main` has taken two more steps (whatever signals arrive meanwhile) it
has returned 0 and the trace is the trace up to that point followed by exactly
one `delete core`: the close comes after every `RunCallbacks` and `UpdateActivity`
call of the run and nothing follows it. -/
theorem clean_shutdown (sdk : Sdk) (sched rest : List Slot)
    (hpc : (exec sdk init sched).pc = Pc.head)
    (hrun : (exec sdk init sched).running = false)
    (hrest : 2 ≤ mainSteps rest) :
    sdk.Create = Result.Ok ∧
    (exec sdk init (sched ++ rest)).pc = Pc.exited 0 ∧
    (exec sdk init (sched ++ rest)).trace = (exec sdk init sched).trace ++ [Event.deleteCore] ∧
    closes (exec sdk init sched).trace = 0 ∧
    closes (exec sdk init (sched ++ rest)).trace = 1 ∧
    drains (exec sdk init (sched ++ rest)).trace = drains (exec sdk init sched).trace ∧
    submissions (exec sdk init (sched ++ rest)).trace =
      submissions (exec sdk init sched).trace := by
  obtain ⟨c1, c2⟩ := exec_closes sdk sched
  rw [hpc] at c1 c2
  simp at c1 c2
  have hr : remaining (exec sdk init sched).pc ≤ mainSteps rest := by
    rw [hpc]; simpa [remaining] using hrest
  obtain ⟨k1, k2⟩ := exec_from_head sdk rest (exec sdk init sched) hrun (Or.inl hpc) hr
  rw [exec_append]
  refine ⟨c2, k1, k2, c1, ?_, ?_, ?_⟩
  · rw [k2, closes_append, c1]; rfl
  · rw [k2, drains_append]; rfl
  · rw [k2, submissions_append]; rfl

/-- Instance of `clean_shutdown`: one full iteration, stopped during it, a second signal before the cleanup. -/
theorem clean_shutdown_witness :
    (exec stub init ([go 1 0, go 1 0, go 1 0, go 1 0, go 1 0, sigint 1, go 1 0, go 16000000 0] ++
      [sigint 1, go 1 0, go 1 0])).pc = Pc.exited 0 ∧
    closes (exec stub init ([go 1 0, go 1 0, go 1 0, go 1 0, go 1 0, sigint 1, go 1 0,
      go 16000000 0] ++ [sigint 1, go 1 0, go 1 0])).trace = 1 :=
  have h := clean_shutdown stub
    [go 1 0, go 1 0, go 1 0, go 1 0, go 1 0, sigint 1, go 1 0, go 16000000 0]
    [sigint 1, go 1 0, go 1 0] (by decide) (by decide) (by decide)
  ⟨h.2.1, h.2.2.2.2.1⟩

/-- C10 (periodic tick, effect and frame): take any state of a run that is inside
the loop and let `main` take its next step, the steady clock then showing `now`.
If the step is the cadence check and the whole seconds from `lastTick` to `now`
are at least 30, the step sets `state` to "Active since startup" and
`timestamps.start` to the wall-clock reading, makes exactly one `UpdateActivity`
call, with that record, and sets `lastTick` to `now`.  Otherwise the step makes no
`UpdateActivity` call and leaves the record and `lastTick` as they are.  Either
way `details`, the category, the four asset fields and `timestamps.end` are
unchanged, and every record submitted in the run carries the values of the
initial submission in them. -/
theorem periodic_tick (sdk : Sdk) (sched : List Slot) (x : Slot)
    (hl : inLoop (exec sdk init sched).pc = true) (hx : x.act = Act.main) :
    ((((exec sdk init sched).pc = Pc.tick ∧
        30 ≤ toSeconds ((exec sdk init sched).clock + x.dt - (exec sdk init sched).lastTick)) →
      (exec sdk init (sched ++ [x])).activity.state = "Active since startup" ∧
      (exec sdk init (sched ++ [x])).activity.timestamps.start = x.wall ∧
      (exec sdk init (sched ++ [x])).trace = (exec sdk init sched).trace ++
        [Event.UpdateActivity (exec sdk init (sched ++ [x])).activity
          (sdk.UpdateActivity (submissions (exec sdk init sched).trace)
            (exec sdk init (sched ++ [x])).activity)] ∧
      (exec sdk init (sched ++ [x])).lastTick = (exec sdk init sched).clock + x.dt) ∧
    (¬ ((exec sdk init sched).pc = Pc.tick ∧
        30 ≤ toSeconds ((exec sdk init sched).clock + x.dt - (exec sdk init sched).lastTick)) →
      (exec sdk init (sched ++ [x])).activity = (exec sdk init sched).activity ∧
      (exec sdk init (sched ++ [x])).lastTick = (exec sdk init sched).lastTick ∧
      submissions (exec sdk init (sched ++ [x])).trace =
        submissions (exec sdk init sched).trace)) ∧
    ((exec sdk init (sched ++ [x])).activity.details = (exec sdk init sched).activity.details ∧
      (exec sdk init (sched ++ [x])).activity.type = (exec sdk init sched).activity.type ∧
      (exec sdk init (sched ++ [x])).activity.assets = (exec sdk init sched).activity.assets ∧
      (exec sdk init (sched ++ [x])).activity.timestamps.end_ =
        (exec sdk init sched).activity.timestamps.end_) ∧
    Static (exec sdk init (sched ++ [x])).activity ∧
    (∀ a cb, Event.UpdateActivity a cb ∈ (exec sdk init (sched ++ [x])).trace → Static a) := by
  have hstep : exec sdk init (sched ++ [x]) = step sdk x (exec sdk init sched) := by
    rw [exec_append]; rfl
  obtain ⟨k1, k2, k3⟩ := step_tick sdk x (exec sdk init sched) hl hx
  have hinv := exec_static sdk (sched ++ [x])
  rw [hstep] at hinv ⊢
  refine ⟨⟨k1, k2⟩, k3, ?_, hinv.1⟩
  have hl2 : (step sdk x (exec sdk init sched)).pc ≠ Pc.create ∧
      (step sdk x (exec sdk init sched)).pc ≠ Pc.setup ∧
      (step sdk x (exec sdk init sched)).pc ≠ Pc.exited 1 := by
    revert hl
    generalize exec sdk init sched = s
    obtain ⟨pc, running, activity, lastTick, out, trace, clock, lastRead, loopStart, loopExit,
      iterations⟩ := s
    obtain ⟨dt, wall, act⟩ := x
    simp only at hx
    subst hx
    cases pc <;> simp [inLoop, step, mainStep] <;> split_ifs <;> simp
  rcases hinv.2 with h | h | h | h
  · exact absurd h hl2.1
  · exact absurd h hl2.2.1
  · exact absurd h hl2.2.2
  · exact h

/-- Instance of `periodic_tick`: the cadence check of the first iteration, 30 s after the start. -/
theorem periodic_tick_witness :
    (exec stub init ([go 0 1700000000, go 0 1700000000, go 0 1700000000, go 5 1700000000,
      go 5 1700000000] ++ [go 30000000000 1700000030])).activity.state = "Active since startup" ∧
    (exec stub init ([go 0 1700000000, go 0 1700000000, go 0 1700000000, go 5 1700000000,
      go 5 1700000000] ++ [go 30000000000 1700000030])).activity.timestamps.start = 1700000030 :=
  have h := periodic_tick stub [go 0 1700000000, go 0 1700000000, go 0 1700000000,
    go 5 1700000000, go 5 1700000000] (go 30000000000 1700000030) (by decide) rfl
  have k := h.1.1 ⟨by decide, by decide⟩
  ⟨k.1, k.2.1⟩

/-- C6, as stated, fails on the SDK implementation of `discordpp.h`: in the run in
which `main` creates the core and makes its initial submission, the callback has
run with `Ok` inside the `UpdateActivity` call, so it is not true that no callback
runs before `UpdateActivity` returns. -/
theorem deferred_delivery_counterexample :
    (exec stub init [go 0 1700000000, go 0 1700000000]).trace =
      [Event.Create Result.Ok, Event.SetLogHook,
        Event.UpdateActivity (initialActivity 1700000000) [Result.Ok]] ∧
    ¬ (∀ a cb, Event.UpdateActivity a cb ∈
        (exec stub init [go 0 1700000000, go 0 1700000000]).trace → cb = []) := by
  have h : (exec stub init [go 0 1700000000, go 0 1700000000]).trace =
      [Event.Create Result.Ok, Event.SetLogHook,
        Event.UpdateActivity (initialActivity 1700000000) [Result.Ok]] := rfl
  refine ⟨h, fun hall => ?_⟩
  have := hall (initialActivity 1700000000) [Result.Ok] (by rw [h]; simp)
  simp at this

/-- C6 as amended (delivery by the in-repository implementation): in every run of
`main` on the SDK of `discordpp.h`, every `UpdateActivity` call has invoked
`OnActivityUpdate` exactly once, with `Ok`, before it returned, and no
`RunCallbacks` call has invoked it. -/
theorem immediate_delivery (sched : List Slot) :
    (∀ a cb, Event.UpdateActivity a cb ∈ (exec stub init sched).trace → cb = [Result.Ok]) ∧
    (∀ cb, Event.RunCallbacks cb ∈ (exec stub init sched).trace → cb = []) :=
  exec_preserves stub (fun t => Immediate t.trace) step_immediate sched init
    ⟨fun a cb h => by simp [init] at h, fun cb h => by simp [init] at h⟩

/-- C7 (callback results are observational only): two runs of `main` on SDKs that
return the same code from `Create`, under the same schedule (the same clock
readings and the same signal deliveries), agree at every point on the program
counter, on `running`, on the record, on `lastTick`, on the number of loop
iterations and on the sequence of calls with the records submitted; they can
differ only in the result codes passed to `OnActivityUpdate` and in the lines the
handler prints. -/
theorem callbacks_observational (sdk1 sdk2 : Sdk) (sched : List Slot)
    (hc : sdk1.Create = sdk2.Create) :
    (exec sdk1 init sched).pc = (exec sdk2 init sched).pc ∧
    (exec sdk1 init sched).running = (exec sdk2 init sched).running ∧
    (exec sdk1 init sched).activity = (exec sdk2 init sched).activity ∧
    (exec sdk1 init sched).lastTick = (exec sdk2 init sched).lastTick ∧
    (exec sdk1 init sched).iterations = (exec sdk2 init sched).iterations ∧
    (exec sdk1 init sched).trace.map Event.erase =
      (exec sdk2 init sched).trace.map Event.erase ∧
    submissions (exec sdk1 init sched).trace = submissions (exec sdk2 init sched).trace := by
  have h := exec_agree sdk1 sdk2 hc sched init init
    ⟨rfl, rfl, rfl, rfl, rfl, rfl, rfl, rfl, rfl, rfl⟩
  obtain ⟨h1, h2, h3, h4, h5, h6, h7, h8, h9, h10⟩ := h
  refine ⟨h1, h2, h3, h4, h10, h5, ?_⟩
  rw [← submissions_erase, h5, submissions_erase]

/-- Instance of `callbacks_observational`: the in-repository SDK against one whose callbacks all fail. -/
theorem callbacks_observational_witness :
    (exec stub init [go 0 5, go 0 5, go 0 5, go 0 5, go 0 5, go 31000000000 36, go 0 36,
      sigint 0, go 0 36, go 0 36]).pc =
    (exec failingSdk init [go 0 5, go 0 5, go 0 5, go 0 5, go 0 5, go 31000000000 36, go 0 36,
      sigint 0, go 0 36, go 0 36]).pc ∧
    submissions (exec failingSdk init [go 0 5, go 0 5, go 0 5, go 0 5, go 0 5,
      go 31000000000 36, go 0 36, sigint 0, go 0 36, go 0 36]).trace = 2 :=
  have h := callbacks_observational stub failingSdk [go 0 5, go 0 5, go 0 5, go 0 5, go 0 5,
    go 31000000000 36, go 0 36, sigint 0, go 0 36, go 0 36] rfl
  ⟨h.1, by decide⟩

/-- C3, as stated, fails: in `slowRun` every sleep lasts at least 16 ms and the
loop runs for 600.016 s, so `floor(E / 30 s)` is 20, yet there is one periodic
re-submission, and `20 - 1 ≤ 1` is false. -/
theorem cadence_counterexample :
    Admits slept stub init slowRun = true ∧
    (exec stub init slowRun).pc = Pc.cleanup ∧
    30 ≤ toSeconds ((exec stub init slowRun).loopExit - (exec stub init slowRun).loopStart) ∧
    toSeconds ((exec stub init slowRun).loopExit - (exec stub init slowRun).loopStart) / 30
      = 20 ∧
    periodic (exec stub init slowRun).trace = 1 ∧
    ¬ (toSeconds ((exec stub init slowRun).loopExit - (exec stub init slowRun).loopStart) / 30
        - 1 ≤ (periodic (exec stub init slowRun).trace : Int)) := by
  decide

/-- A bound on the pace alone does not give the tolerance of one: in `driftRun`
every iteration advances the clock by 20 s, the loop re-submits at every second
reading, and after 400 s there are 10 periodic re-submissions while
`floor(E / 30 s)` is 13. -/
theorem cadence_drift :
    Admits (paced 20000000000) stub init driftRun = true ∧
    Admits slept stub init driftRun = true ∧
    (exec stub init driftRun).pc = Pc.cleanup ∧
    toSeconds ((exec stub init driftRun).loopExit - (exec stub init driftRun).loopStart) / 30
      = 13 ∧
    periodic (exec stub init driftRun).trace = 10 := by
  decide!

/-- C3 as amended (cadence bounds): in every run in which no step of the loop
takes place more than `d` nanoseconds after the latest steady-clock reading, once
the loop has been left the elapsed time `E` from the initialisation of `lastTick`
to the loop exit and the number `N` of periodic re-submissions satisfy
`30 s * N ≤ E < (N + 1) * (30 s + d)`.  Hence `N ≤ floor(E / 30 s)`, and
`floor(E / 30 s) - 1 ≤ N` whenever `(floor(E / 30 s) + 1) * d ≤ 30 s`. -/
theorem cadence_bounds (sdk : Sdk) (d : Nat) (sched : List Slot)
    (hp : Admits (paced d) sdk init sched = true)
    (hl : loopLeft (exec sdk init sched).pc) :
    30000000000 * (periodic (exec sdk init sched).trace : Int)
      ≤ (exec sdk init sched).loopExit - (exec sdk init sched).loopStart ∧
    (exec sdk init sched).loopExit - (exec sdk init sched).loopStart
      < ((periodic (exec sdk init sched).trace : Int) + 1) * (30000000000 + (d : Int)) ∧
    (periodic (exec sdk init sched).trace : Int)
      ≤ toSeconds ((exec sdk init sched).loopExit - (exec sdk init sched).loopStart) / 30 ∧
    ((toSeconds ((exec sdk init sched).loopExit - (exec sdk init sched).loopStart) / 30 + 1)
        * (d : Int) ≤ 30000000000 →
      toSeconds ((exec sdk init sched).loopExit - (exec sdk init sched).loopStart) / 30 - 1
        ≤ (periodic (exec sdk init sched).trace : Int)) := by
  obtain ⟨_, _, _, h4, h5⟩ := exec_cadence sdk d sched hp
  obtain ⟨h0, h1, h2, h3, h6, h7⟩ := h4 (Or.inr hl)
  obtain ⟨h8, h9⟩ := h5 hl
  generalize (exec sdk init sched).loopExit = ex at *
  generalize (exec sdk init sched).loopStart = st at *
  generalize (exec sdk init sched).lastTick = lt at *
  generalize (exec sdk init sched).lastRead = lr at *
  have hN : ((periodic (exec sdk init sched).trace : Nat) : Int)
      = (submissions (exec sdk init sched).trace : Int) - 1 := by
    unfold periodic; omega
  rw [hN]
  generalize (submissions (exec sdk init sched).trace : Int) = n at *
  have hE : 0 ≤ ex - st := by nlinarith
  have hsec : toSeconds (ex - st) / 30 = (ex - st) / 30000000000 := by
    unfold toSeconds
    rw [Int.tdiv_eq_ediv hE (by norm_num)]
    omega
  rw [hsec]
  have hK : 30000000000 * ((ex - st) / 30000000000) ≤ ex - st ∧
      ex - st < 30000000000 * ((ex - st) / 30000000000 + 1) := by omega
  generalize (ex - st) / 30000000000 = k at *
  have hd : (0 : Int) ≤ d := Int.natCast_nonneg d
  refine ⟨by linarith, by nlinarith, by omega, ?_⟩
  intro hkd
  by_contra hcon
  push_neg at hcon
  have h10 : n + 1 ≤ k := by omega
  nlinarith [mul_nonneg (by linarith : (0 : Int) ≤ k - n - 1) hd]

set_option maxRecDepth 100000

/-- Instances of `cadence_bounds`.  `run65` keeps a pace of 1 s: 65 s elapse and
there are 2 periodic re-submissions, `floor(E / 30 s)` is 2, and since
`(2 + 1) * 1 s ≤ 30 s` both `N ≤ floor` and `floor - 1 ≤ N` follow.  `driftRun`
keeps a pace of 20 s: 400 s elapse with 10 periodic re-submissions, within
`30 s * 10 ≤ E < 11 * 50 s`. -/
theorem cadence_bounds_witness :
    Admits (paced 1000000000) stub init run65 = true ∧
    loopLeft (exec stub init run65).pc ∧
    periodic (exec stub init run65).trace = 2 ∧
    toSeconds ((exec stub init run65).loopExit - (exec stub init run65).loopStart) / 30 = 2 ∧
    (periodic (exec stub init run65).trace : Int)
      ≤ toSeconds ((exec stub init run65).loopExit - (exec stub init run65).loopStart) / 30 ∧
    toSeconds ((exec stub init run65).loopExit - (exec stub init run65).loopStart) / 30 - 1
      ≤ (periodic (exec stub init run65).trace : Int) ∧
    Admits (paced 20000000000) stub init driftRun = true ∧
    loopLeft (exec stub init driftRun).pc ∧
    periodic (exec stub init driftRun).trace = 10 ∧
    30000000000 * (periodic (exec stub init driftRun).trace : Int)
      ≤ (exec stub init driftRun).loopExit - (exec stub init driftRun).loopStart ∧
    (exec stub init driftRun).loopExit - (exec stub init driftRun).loopStart
      < ((periodic (exec stub init driftRun).trace : Int) + 1)
        * (30000000000 + ((20000000000 : Nat) : Int)) :=
  have a1 : Admits (paced 1000000000) stub init run65 = true := by decide!
  have l1 : loopLeft (exec stub init run65).pc := Or.inr (by decide!)
  have h := cadence_bounds stub 1000000000 run65 a1 l1
  have a2 : Admits (paced 20000000000) stub init driftRun = true := by decide!
  have l2 : loopLeft (exec stub init driftRun).pc := Or.inl (by decide!)
  have k := cadence_bounds stub 20000000000 driftRun a2 l2
  ⟨a1, l1, by decide!, by decide!, h.2.2.1, h.2.2.2 (by decide!), a2, l2, by decide!,
    k.1, k.2.1⟩

/-- C4 (65-second scenario): in every run in which no step of the loop takes place
more than one second after the latest steady-clock reading, the stop signal is
delivered once 65 s have passed since `lastTick` was initialised and not before,
and the loop has been left, `UpdateActivity` has been called exactly 3 times: the
initial submission and 2 periodic re-submissions. -/
theorem sixty_five_seconds (sdk : Sdk) (sched : List Slot)
    (hp : Admits scenario65 sdk init sched = true)
    (hl : loopLeft (exec sdk init sched).pc) :
    submissions (exec sdk init sched).trace = 3 ∧
    periodic (exec sdk init sched).trace = 2 := by
  obtain ⟨hc, hs⟩ := exec_stopping65 sdk sched hp
  obtain ⟨_, _, _, h4, h5⟩ := hc
  obtain ⟨h0, h1, h2, h3, h6, h7⟩ := h4 (Or.inr hl)
  obtain ⟨h8, h9⟩ := h5 hl
  obtain ⟨_, _, _, k4, k5⟩ := hs
  have k6 := k4 (Or.inr hl)
  have k7 := k5 hl
  have key : submissions (exec sdk init sched).trace = 3 := by
    push_cast at h1 h2 h9
    rcases k6 with k6 | ⟨_, _, _, k6⟩ <;> omega
  exact ⟨key, by unfold periodic; omega⟩

/-- Instance of `sixty_five_seconds`: `run65`, with iterations of one second. -/
theorem sixty_five_seconds_witness :
    Admits scenario65 stub init run65 = true ∧
    (exec stub init run65).pc = Pc.exited 0 ∧
    submissions (exec stub init run65).trace = 3 :=
  have ha : Admits scenario65 stub init run65 = true := by decide!
  have hx : (exec stub init run65).pc = Pc.exited 0 := by decide!
  ⟨ha, hx, (sixty_five_seconds stub run65 ha (Or.inr hx)).1⟩

/-- C5, as stated, fails: in `raceStart` the flag is cleared 29.997004 s after
`lastTick` was initialised, while an iteration is in progress; that iteration
reads the clock at 30.002004 s and re-submits, so the finished run has two
`UpdateActivity` calls, not one. -/
theorem early_stop_counterexample :
    (exec stub init raceStart).running = false ∧
    (exec stub init raceStart).clock - (exec stub init raceStart).loopStart < 30000000000 ∧
    (exec stub init (raceStart ++ raceEnd)).pc = Pc.exited 0 ∧
    submissions (exec stub init (raceStart ++ raceEnd)).trace = 2 ∧
    ¬ (submissions (exec stub init (raceStart ++ raceEnd)).trace = 1) := by
  decide

/-- C5 as amended (early stop): in every run in which `Create` returns `Ok`, every
steady-clock reading taken in the loop shows less than 30 s since `lastTick` was
initialised, and `running` has been cleared (at any point, also before the first
check of the loop condition), once `main` has taken five more steps it has
returned 0 and the run contains exactly one `UpdateActivity` call, the initial
submission, no periodic re-submission and exactly one `delete core`. -/
theorem early_stop (sdk : Sdk) (sched rest : List Slot)
    (hc : sdk.Create = Result.Ok)
    (ha : Admits early sdk init (sched ++ rest) = true)
    (hrun : (exec sdk init sched).running = false)
    (hrest : 5 ≤ mainSteps rest) :
    (exec sdk init (sched ++ rest)).pc = Pc.exited 0 ∧
    submissions (exec sdk init (sched ++ rest)).trace = 1 ∧
    periodic (exec sdk init (sched ++ rest)).trace = 0 ∧
    closes (exec sdk init (sched ++ rest)).trace = 1 := by
  have hr : remaining (exec sdk init sched).pc ≤ mainSteps rest := by
    have : remaining (exec sdk init sched).pc ≤ 5 := by
      cases (exec sdk init sched).pc <;> simp [remaining]
    omega
  have hpc : (exec sdk init (sched ++ rest)).pc = Pc.exited 0 := by
    rw [exec_append]
    exact exec_terminates sdk hc rest _ hrun (exec_alive sdk hc sched) hr
  obtain ⟨_, _, _, h4⟩ := exec_early sdk (sched ++ rest) ha
  obtain ⟨h5, _⟩ := h4 (Or.inr (Or.inr hpc))
  have h6 := (exec_closes sdk (sched ++ rest)).1
  rw [hpc] at h6
  exact ⟨hpc, h5, by unfold periodic; omega, by simpa using h6⟩

/-- Instances of `early_stop`.  In `earlyStart ++ earlyEnd` the loop completes one
iteration, is stopped during the second, and that iteration still reads the clock,
at 29.017005 s: both readings are below 30 s, there is no re-submission, one
`delete core`, exit code 0.  In `stopFirst` the stop comes before the first check
of the loop condition. -/
theorem early_stop_witness :
    Admits early stub init (earlyStart ++ earlyEnd) = true ∧
    (exec stub init earlyStart).running = false ∧
    (exec stub init earlyStart).iterations = 2 ∧
    (exec stub init (earlyStart ++ earlyEnd)).lastRead = 29017005000 ∧
    (exec stub init (earlyStart ++ earlyEnd)).pc = Pc.exited 0 ∧
    submissions (exec stub init (earlyStart ++ earlyEnd)).trace = 1 ∧
    periodic (exec stub init (earlyStart ++ earlyEnd)).trace = 0 ∧
    closes (exec stub init (earlyStart ++ earlyEnd)).trace = 1 ∧
    (exec stub init (stopFirst ++ [go 0 0, go 40000000000 0, go 0 0, go 0 0, go 0 0])).pc
      = Pc.exited 0 ∧
    submissions
      (exec stub init (stopFirst ++ [go 0 0, go 40000000000 0, go 0 0, go 0 0, go 0 0])).trace
      = 1 :=
  have a1 : Admits early stub init (earlyStart ++ earlyEnd) = true := by decide
  have r1 : (exec stub init earlyStart).running = false := by decide
  have h := early_stop stub earlyStart earlyEnd rfl a1 r1 (by decide)
  have k := early_stop stub stopFirst [go 0 0, go 40000000000 0, go 0 0, go 0 0, go 0 0] rfl
    (by decide) (by decide) (by decide)
  ⟨a1, r1, by decide, by decide, h.1, h.2.1, h.2.2.1, h.2.2.2, k.1, k.2.1⟩

end DiscordSdk
